import Mathlib

/-!
Verification development for the scheduling & delivery-gating engine of the
discord-happy-manager repository. Each TypeScript module relevant to the
frozen claims is shallowly embedded as executable Lean definitions, and the
claims are settled as theorems about those definitions.

Times are modelled as integer milliseconds (JavaScript `Date.now()` /
SQLite `datetime` comparisons are strict or non-strict exactly as in the
SQL text). Database tables are modelled as association lists of rows.
-/

namespace HappyManager

/-! ## Cooldown repository (src/db/cooldownRepo.ts)

The `cooldowns` table has rows `(key TEXT PRIMARY KEY, expires_at DATETIME)`.
We model the table as a list of `(key, expiry)` pairs and the current
instant `now` as an explicit parameter. `expires_at` comparisons in the SQL
are `> datetime('now')` (strict) for reads and `<= datetime('now')` for the
cleanup delete. -/

/-- A row of the `cooldowns` table: key and absolute expiry (ms). -/
abbrev CooldownStore := List (String × Int)

namespace Cooldown

/-- `CooldownRepository.set`: `INSERT ... ON CONFLICT(key) DO UPDATE SET
expires_at = excluded.expires_at` — insert or overwrite the expiry. -/
def set (s : CooldownStore) (key : String) (expiresAt : Int) : CooldownStore :=
  if s.any (fun r => r.1 == key) then
    s.map (fun r => if r.1 == key then (key, expiresAt) else r)
  else
    s ++ [(key, expiresAt)]

/-- `CooldownRepository.get`: `SELECT expires_at FROM cooldowns WHERE key = ?
AND expires_at > datetime('now')` — the stored expiry, only if strictly in
the future; otherwise `null`. -/
def get (s : CooldownStore) (key : String) (now : Int) : Option Int :=
  match s.find? (fun r => r.1 == key) with
  | some r => if now < r.2 then some r.2 else none
  | none => none

/-- `CooldownRepository.isOnCooldown`: `this.get(key) !== null`. -/
def isOnCooldown (s : CooldownStore) (key : String) (now : Int) : Bool :=
  (get s key now).isSome

/-- `CooldownRepository.getRemainingMs`: `max(0, expiresAt - Date.now())`,
`0` when absent or expired. -/
def getRemainingMs (s : CooldownStore) (key : String) (now : Int) : Int :=
  match get s key now with
  | none => 0
  | some e => max 0 (e - now)

/-- `CooldownRepository.setWithDuration`:
`set(key, new Date(Date.now() + durationSeconds * 1000))`. -/
def setWithDuration (s : CooldownStore) (key : String) (now : Int)
    (durationSeconds : Int) : CooldownStore :=
  set s key (now + durationSeconds * 1000)

/-- `CooldownRepository.delete`: `DELETE FROM cooldowns WHERE key = ?`. -/
def delete (s : CooldownStore) (key : String) : CooldownStore :=
  s.filter (fun r => !(r.1 == key))

/-- `CooldownRepository.cleanup`: `DELETE FROM cooldowns WHERE expires_at <=
datetime('now')`, returning `result.changes` (the number of deleted rows).
The pair is (remaining table, count removed). -/
def cleanup (s : CooldownStore) (now : Int) : CooldownStore × Nat :=
  match s with
  | [] => ([], 0)
  | r :: rest =>
    let (kept, n) := cleanup rest now
    if r.2 ≤ now then (kept, n + 1) else (r :: kept, n)

/-- `CooldownRepository.deleteForGuild`: `DELETE FROM cooldowns WHERE key
LIKE 'guild:' || ? || ':%'`, returning the number of deleted rows. -/
def deleteForGuild (s : CooldownStore) (guildId : String) : CooldownStore × Nat :=
  let pred : String × Int → Bool :=
    fun r => ("guild:" ++ guildId ++ ":").isPrefixOf r.1
  (s.filter (fun r => !(pred r)), (s.filter pred).length)

theorem find?_map_replace (s : CooldownStore) (key : String) (e : Int) :
    (s.map (fun r => if r.1 == key then (key, e) else r)).find?
        (fun r => r.1 == key) =
      if s.any (fun r => r.1 == key) then some (key, e) else none := by
  induction s with
  | nil => simp
  | cons a rest ih =>
    by_cases ha : a.1 == key
    · simp only [List.map_cons, if_pos ha, List.any_cons, ha, Bool.true_or, if_true]
      exact List.find?_cons_of_pos _ (by simp)
    · have ha' : (a.1 == key) = false := by simpa using ha
      simp only [List.map_cons, List.any_cons, ha', Bool.false_or, Bool.false_eq_true,
        if_false]
      rw [List.find?_cons_of_neg _ (by simpa using ha), ih]

theorem find?_set_self (s : CooldownStore) (key : String) (e : Int) :
    (set s key e).find? (fun r => r.1 == key) = some (key, e) := by
  unfold set
  by_cases h : s.any (fun r => r.1 == key)
  · rw [if_pos h, find?_map_replace, if_pos h]
  · rw [if_neg h, List.find?_append]
    have hnone : s.find? (fun r => r.1 == key) = none := by
      rw [List.find?_eq_none]
      intro x hx hc
      exact h (List.any_eq_true.mpr ⟨x, hx, hc⟩)
    simp [hnone, List.find?]

theorem find?_delete_self (s : CooldownStore) (key : String) :
    (delete s key).find? (fun r => r.1 == key) = none := by
  rw [List.find?_eq_none]
  intro x hx
  have := List.of_mem_filter hx
  simpa using this

theorem get_eq_some_iff (s : CooldownStore) (k : String) (now e : Int) :
    get s k now = some e ↔
      s.find? (fun r => r.1 == k) = some (k, e) ∧ now < e := by
  unfold get
  cases hfind : s.find? (fun r => r.1 == k) with
  | none => simp
  | some r =>
    obtain ⟨a, b⟩ := r
    have ha : a = k := by simpa using List.find?_some hfind
    subst ha
    show (if now < b then some b else none) = some e ↔ _
    by_cases hlt : now < b
    · rw [if_pos hlt]
      constructor
      · intro h
        cases h
        exact ⟨rfl, hlt⟩
      · rintro ⟨h, -⟩
        cases h
        rfl
    · rw [if_neg hlt]
      constructor
      · intro h
        cases h
      · rintro ⟨h, hne⟩
        cases h
        exact absurd hne hlt

end Cooldown

/-- C1: `get` returns the stored expiry exactly when it is strictly in the
future, and otherwise reports absent; consequently `isOnCooldown` is false
for a key with no stored row, true immediately after
`setWithDuration(k, d)` with `d > 0`, false again once the current time has
advanced past the stored expiry `now + d*1000`, and false immediately after
`delete(k)`. -/
theorem c1_cooldown_gating :
    (∀ (s : CooldownStore) (k : String) (now e : Int),
        Cooldown.get s k now = some e ↔
          s.find? (fun r => r.1 == k) = some (k, e) ∧ now < e) ∧
    (∀ (s : CooldownStore) (k : String) (now : Int),
        s.find? (fun r => r.1 == k) = none →
        Cooldown.isOnCooldown s k now = false) ∧
    (∀ (s : CooldownStore) (k : String) (now d : Int), 0 < d →
        Cooldown.isOnCooldown (Cooldown.setWithDuration s k now d) k now = true) ∧
    (∀ (s : CooldownStore) (k : String) (now d later : Int),
        now + d * 1000 < later →
        Cooldown.isOnCooldown (Cooldown.setWithDuration s k now d) k later = false) ∧
    (∀ (s : CooldownStore) (k : String) (now : Int),
        Cooldown.isOnCooldown (Cooldown.delete s k) k now = false) := by
  refine ⟨Cooldown.get_eq_some_iff, ?_, ?_, ?_, ?_⟩
  · intro s k now h
    simp [Cooldown.isOnCooldown, Cooldown.get, h]
  · intro s k now d hd
    have hpos : (0:Int) < d * 1000 :=
      mul_pos hd (by norm_num)
    simp [Cooldown.isOnCooldown, Cooldown.setWithDuration, Cooldown.get,
      Cooldown.find?_set_self]
    omega
  · intro s k now d later hlt
    simp [Cooldown.isOnCooldown, Cooldown.setWithDuration, Cooldown.get,
      Cooldown.find?_set_self]
    omega
  · intro s k now
    simp [Cooldown.isOnCooldown, Cooldown.get, Cooldown.find?_delete_self]

/-- Witness for C1 at concrete inputs: a 90-second lock set at time 0 is
active at time 0, inactive at time 90001, a never-set key is off cooldown,
a deleted key is off cooldown, and `get` agrees with its stored-row
characterization on a one-row table. -/
theorem c1_cooldown_gating_witness :
    Cooldown.isOnCooldown
      (Cooldown.setWithDuration [] "scheduled:1:09:15" 0 90) "scheduled:1:09:15" 0
      = true ∧
    Cooldown.isOnCooldown
      (Cooldown.setWithDuration [] "scheduled:1:09:15" 0 90) "scheduled:1:09:15" 90001
      = false ∧
    Cooldown.isOnCooldown [] "guild:1:now" 5 = false ∧
    Cooldown.isOnCooldown
      (Cooldown.delete [("guild:1:now", 99)] "guild:1:now") "guild:1:now" 5 = false ∧
    (Cooldown.get [("k", 10)] "k" 3 = some 10 ↔
      ([("k", 10)] : CooldownStore).find? (fun r => r.1 == "k") = some ("k", 10) ∧
        (3:Int) < 10) :=
  ⟨c1_cooldown_gating.2.2.1 [] "scheduled:1:09:15" 0 90 (by decide),
   c1_cooldown_gating.2.2.2.1 [] "scheduled:1:09:15" 0 90 90001 (by decide),
   c1_cooldown_gating.2.1 [] "guild:1:now" 5 rfl,
   c1_cooldown_gating.2.2.2.2 [("guild:1:now", 99)] "guild:1:now" 5,
   c1_cooldown_gating.1 [("k", 10)] "k" 3 10⟩

/-- C2: `cleanup` physically removes exactly the rows whose expiry is
`≤ now`, leaves every other row unchanged (in place and in order), and
returns the exact count of rows removed. -/
theorem c2_cleanup_exact :
    ∀ (s : CooldownStore) (now : Int),
      (Cooldown.cleanup s now).1 = s.filter (fun r => decide (now < r.2)) ∧
      (Cooldown.cleanup s now).2 =
        (s.filter (fun r => decide (r.2 ≤ now))).length ∧
      (Cooldown.cleanup s now).1.length + (Cooldown.cleanup s now).2 = s.length := by
  intro s now
  induction s with
  | nil => simp [Cooldown.cleanup]
  | cons r rest ih =>
    obtain ⟨h1, h2, h3⟩ := ih
    rcases hcl : Cooldown.cleanup rest now with ⟨kept, n⟩
    rw [hcl] at h1 h2 h3
    simp only at h1 h2 h3
    by_cases hr : r.2 ≤ now
    · have hr' : ¬ now < r.2 := not_lt.mpr hr
      refine ⟨?_, ?_, ?_⟩
      · simp [Cooldown.cleanup, hcl, hr, hr', h1]
      · simp [Cooldown.cleanup, hcl, hr, hr', h2]
      · simp only [Cooldown.cleanup, hcl]
        simp [hr, hr']
        omega
    · have hr' : now < r.2 := not_le.mp hr
      refine ⟨?_, ?_, ?_⟩
      · simp [Cooldown.cleanup, hcl, hr, hr', h1]
      · simp [Cooldown.cleanup, hcl, hr, hr', h2]
      · simp only [Cooldown.cleanup, hcl]
        simp [hr, hr']
        omega

/-! ## Constants (src/config/constants.ts)

`Category` is a union of string literals in the source; it is modelled as
`String`, with the five literal values appearing where the source names
them. All category strings in `SLOT_CATEGORY_MAP` are non-empty, so the
JavaScript truthiness test `if (mapped)` coincides with presence in the
map, modelled by `Option`. -/

/-- `CONTENT.MAX_LENGTH`. -/
def MAX_LENGTH : Nat := 600

/-- `CONTENT.MAX_EMOJIS`. -/
def MAX_EMOJIS : Nat := 2

/-- `CONTENT.ANTI_REPETITION_DAYS`. -/
def ANTI_REPETITION_DAYS : Nat := 30

/-- `CONTENT.MAX_RETRY_ATTEMPTS`. -/
def MAX_RETRY_ATTEMPTS : Nat := 10

/-- `SLOT_CATEGORY_MAP`: the static slot→category table
`{'09:15': motivation, '12:45': wellbeing, '16:30': team}`. A `Record`
lookup yields `undefined` for absent keys, modelled by `none`. -/
def SLOT_CATEGORY_MAP : String → Option String := fun slot =>
  if slot = "09:15" then some "motivation"
  else if slot = "12:45" then some "wellbeing"
  else if slot = "16:30" then some "team"
  else none

/-- `BANNED_WORDS` from src/config/constants.ts, in source order. -/
def BANNED_WORDS : List String :=
  ["suicide", "depression", "anxiety", "therapy", "therapist", "medication",
   "pills", "antidepressant", "psychiatrist", "diagnosis", "disorder",
   "fuck", "shit", "damn", "hell", "ass", "bitch",
   "god", "jesus", "allah", "religion", "pray", "prayer",
   "politics", "election", "government", "president",
   "must", "should", "have to", "need to", "failure", "lazy"]

/-! ## Slot resolver (src/scheduler/jobs.ts) -/

/-- `getSlotCategory(slot, cadence)`: static table lookup, then the
cadence-3 midday fallback, then the default category. The TS parameter
type is `2 | 3`; it is modelled as `Nat`. -/
def getSlotCategory (slot : String) (cadence : Nat) : String :=
  match SLOT_CATEGORY_MAP slot with
  | some mapped => mapped
  | none =>
    if cadence = 3 ∧ slot = "12:45" then "wellbeing" else "motivation"

/-- `getSlotCooldownKey(guildId, slot)`. -/
def getSlotCooldownKey (guildId slot : String) : String :=
  "scheduled:" ++ guildId ++ ":" ++ slot

/-- C10: the cadence argument never affects `getSlotCategory`’s result —
the cadence-3 fallback branch is unreachable because `"12:45"` is already
in the static table — and in particular
`getSlotCategory("12:45", 2) = wellbeing`. -/
theorem c10_getSlotCategory_cadence_irrelevant :
    (∀ slot : String, getSlotCategory slot 2 = getSlotCategory slot 3) ∧
    getSlotCategory "12:45" 2 = "wellbeing" := by
  constructor
  · intro slot
    unfold getSlotCategory SLOT_CATEGORY_MAP
    by_cases h1 : slot = "09:15"
    · simp [h1]
    · by_cases h2 : slot = "12:45"
      · simp [h1, h2]
      · by_cases h3 : slot = "16:30"
        · simp [h1, h2, h3]
        · simp [h1, h2, h3]
  · rfl

/-! ## Content filters (src/content/filters.ts)

`FilterResult` has a `passed` flag and an optional `reason` string. JS
`String.prototype.includes` is embedded as a substring scan over the
character list. `countEmojis` in the source is a regex over Unicode emoji
property tables (`\p{Emoji_Presentation}` etc.): those tables live in the
JS engine, not in this repository, so the emoji counter is a parameter of
`checkEmojiCount`/`applyFilters`; every claim proved below holds for every
counter. JS string `.length` counts UTF-16 code units; it is modelled as
the character count, which agrees on all the concrete inputs used here. -/

structure FilterResult where
  passed : Bool
  reason : Option String := none
deriving Repr, DecidableEq

/-- JS `s.includes(pattern)` over character lists. -/
def jsIncludesL (s pattern : List Char) : Bool :=
  pattern.isPrefixOf s ||
    (match s with
     | [] => false
     | _ :: rest => jsIncludesL rest pattern)

/-- JS `s.includes(pattern)`. -/
def jsIncludes (s pattern : String) : Bool :=
  jsIncludesL s.toList pattern.toList

/-- `checkLength(text)`: too-long check, then emptiness-after-trim check. -/
def checkLength (text : String) : FilterResult :=
  if text.length > MAX_LENGTH then
    { passed := false
      reason := some ("Message too long: " ++ toString text.length ++
        " chars (max " ++ toString MAX_LENGTH ++ ")") }
  else if text.trim.length = 0 then
    { passed := false, reason := some "Message is empty" }
  else
    { passed := true }

/-- `checkBannedWords(text)`: first banned word contained
(case-insensitively) in the text, if any. The `for` loop returns at the
first match, mirrored by `find?` over the denylist in source order. -/
def checkBannedWords (text : String) : FilterResult :=
  let lowerText := text.toLower
  match BANNED_WORDS.find? (fun word => jsIncludes lowerText word.toLower) with
  | some word => { passed := false, reason := some ("Contains banned word: " ++ word) }
  | none => { passed := true }

/-- `checkEmojiCount(text)`, parameterized by the emoji counter. -/
def checkEmojiCount (countEmojis : String → Nat) (text : String) : FilterResult :=
  let count := countEmojis text
  if count > MAX_EMOJIS then
    { passed := false
      reason := some ("Too many emojis: " ++ toString count ++
        " (max " ++ toString MAX_EMOJIS ++ ")") }
  else
    { passed := true }

/-- `ContentItem` (src/types/index.ts). `category` and `provider` are
string-literal unions, modelled as `String`. -/
structure ContentItem where
  id : String
  category : String
  text : String
  tags : Option (List String) := none
  source : Option String := none
  provider : String
deriving Repr, DecidableEq

/-- `applyFilters(item)`: length → banned words → emoji count, returning
at the first failing check. -/
def applyFilters (countEmojis : String → Nat) (item : ContentItem) : FilterResult :=
  let lengthCheck := checkLength item.text
  if !lengthCheck.passed then lengthCheck
  else
    let bannedCheck := checkBannedWords item.text
    if !bannedCheck.passed then bannedCheck
    else
      let emojiCheck := checkEmojiCount countEmojis item.text
      if !emojiCheck.passed then emojiCheck
      else { passed := true }

/-- C8: `applyFilters` evaluates length before banned terms before emoji
count, short-circuiting at the first failure; in particular a text that
both exceeds the length cap and contains a banned term reports the length
failure. -/
theorem c8_applyFilters_order (ce : String → Nat) (item : ContentItem) :
    ((checkLength item.text).passed = false →
      applyFilters ce item = checkLength item.text) ∧
    ((checkLength item.text).passed = true →
      (checkBannedWords item.text).passed = false →
      applyFilters ce item = checkBannedWords item.text) ∧
    ((checkLength item.text).passed = true →
      (checkBannedWords item.text).passed = true →
      applyFilters ce item = checkEmojiCount ce item.text) ∧
    (item.text.length > MAX_LENGTH →
      (applyFilters ce item).reason =
        some ("Message too long: " ++ toString item.text.length ++
          " chars (max " ++ toString MAX_LENGTH ++ ")")) := by
  refine ⟨?_, ?_, ?_, ?_⟩
  · intro h
    simp [applyFilters, h]
  · intro h1 h2
    simp [applyFilters, h1, h2]
  · intro h1 h2
    unfold applyFilters
    simp only [h1, h2, Bool.not_true, Bool.false_eq_true, if_false]
    rcases he : (checkEmojiCount ce item.text).passed with _ | _
    · simp [he]
    · have : checkEmojiCount ce item.text = { passed := true } := by
        unfold checkEmojiCount at he ⊢
        by_cases hc : ce item.text > MAX_EMOJIS
        · rw [if_pos hc] at he
          cases he
        · rw [if_neg hc]
      simp [he, this]
  · intro h
    have hfail : checkLength item.text =
        { passed := false
          reason := some ("Message too long: " ++ toString item.text.length ++
            " chars (max " ++ toString MAX_LENGTH ++ ")") } := by
      unfold checkLength
      rw [if_pos h]
    simp [applyFilters, hfail]

/-- Concrete item for exercising the filters: 601 copies of `x` followed
by a banned term, so the text both exceeds the length cap and contains a
denylisted word. -/
def c8ExampleItem : ContentItem :=
  { id := "ex-1", category := "motivation"
    text := String.mk (List.replicate 601 'x') ++ "suicide"
    provider := "local" }

set_option maxRecDepth 40000 in
/-- Witness for C8: on a 608-character text containing "suicide", the
reported reason is the length failure, and `applyFilters` returns exactly
`checkLength`’s result. -/
theorem c8_applyFilters_order_witness :
    applyFilters (fun _ => 0) c8ExampleItem = checkLength c8ExampleItem.text ∧
    (applyFilters (fun _ => 0) c8ExampleItem).reason =
      some ("Message too long: " ++ toString c8ExampleItem.text.length ++
        " chars (max " ++ toString MAX_LENGTH ++ ")") :=
  ⟨(c8_applyFilters_order (fun _ => 0) c8ExampleItem).1 (by decide),
   (c8_applyFilters_order (fun _ => 0) c8ExampleItem).2.2.2 (by decide)⟩

/-! ## Local pack provider (src/content/localPackProvider.ts)

`pickRandom` draws `items[Math.floor(Math.random() * items.length)]`. The
successive results of `Math.floor(Math.random() * items.length)` are
modelled as a stream `draws : Nat → Nat` (the value consumed by the t-th
call to `pickRandom` during one `getItem` invocation); a real trace always
satisfies `draws t < items.length`. `sentRepo.wasSentRecently` is an
external read modelled as a boolean oracle taking guild, content id, and
window in days. -/

/-- `ContentNotFoundError(category, guildId ?? 'unknown')`. -/
structure ContentNotFoundError where
  category : Option String
  guildId : String
deriving Repr, DecidableEq

/-- `LocalPackProvider.pickRandom`: the item at the drawn index. The
non-null assertion `items[index]!` is modelled with a default that is
never reached on a valid trace. -/
def pickRandom (items : List ContentItem) (idx : Nat) : ContentItem :=
  items.getD idx { id := "", category := "", text := "", provider := "" }

/-- The `for (attempt = 0; attempt < MAX_RETRY_ATTEMPTS; attempt++)` loop
inside `LocalPackProvider.getItem`: draw, test `wasSentRecently`, return
the first unseen draw; `none` when the given number of attempts is
exhausted. `attempt` is the loop counter, `fuel` the remaining
iterations. -/
def findFresh (wasSent : String → Bool) (draws : Nat → Nat)
    (candidates : List ContentItem) : Nat → Nat → Option ContentItem
  | _, 0 => none
  | attempt, fuel + 1 =>
    let item := pickRandom candidates (draws attempt)
    if wasSent item.id then findFresh wasSent draws candidates (attempt + 1) fuel
    else some item

/-- `LocalPackProvider.getItem(category?, guildId?)`: throw
`ContentNotFoundError` on an empty candidate set; with no guild a plain
random draw; with a guild up to `MAX_RETRY_ATTEMPTS` anti-repetition
draws, then one further unconditional random draw. -/
def localPackGetItem (wasSent : String → String → Nat → Bool)
    (draws : Nat → Nat) (candidates : List ContentItem)
    (category : Option String) (guildId : Option String) :
    Except ContentNotFoundError ContentItem :=
  if candidates.length = 0 then
    .error ⟨category, guildId.getD "unknown"⟩
  else
    match guildId with
    | none => .ok (pickRandom candidates (draws 0))
    | some g =>
      match findFresh (fun cid => wasSent g cid ANTI_REPETITION_DAYS)
          draws candidates 0 MAX_RETRY_ATTEMPTS with
      | some item => .ok item
      | none => .ok (pickRandom candidates (draws MAX_RETRY_ATTEMPTS))

theorem findFresh_all_seen (ws : String → Bool) (draws : Nat → Nat)
    (cands : List ContentItem) :
    ∀ (fuel a : Nat),
      (∀ t, a ≤ t → t < a + fuel → ws (pickRandom cands (draws t)).id = true) →
      findFresh ws draws cands a fuel = none := by
  intro fuel
  induction fuel with
  | zero => intro a _; rfl
  | succ f ih =>
    intro a h
    unfold findFresh
    rw [if_pos (h a le_rfl (by omega))]
    exact ih (a + 1) (fun t h1 h2 => h t (by omega) (by omega))

theorem findFresh_first_unseen (ws : String → Bool) (draws : Nat → Nat)
    (cands : List ContentItem) :
    ∀ (fuel a t : Nat), a ≤ t → t < a + fuel →
      (∀ u, a ≤ u → u < t → ws (pickRandom cands (draws u)).id = true) →
      ws (pickRandom cands (draws t)).id = false →
      findFresh ws draws cands a fuel = some (pickRandom cands (draws t)) := by
  intro fuel
  induction fuel with
  | zero => intro a t h1 h2; omega
  | succ f ih =>
    intro a t h1 h2 hseen hfresh
    unfold findFresh
    rcases Nat.eq_or_lt_of_le h1 with rfl | hlt
    · rw [if_neg (by simp [hfresh])]
    · rw [if_pos (hseen a le_rfl hlt)]
      exact ih (a + 1) t hlt (by omega)
        (fun u hu1 hu2 => hseen u (by omega) hu2) hfresh

/-- Anti-repetition example item A. -/
def c3ItemA : ContentItem :=
  { id := "mot-001", category := "motivation", text := "Allez hop", provider := "local" }

/-- Anti-repetition example item B. -/
def c3ItemB : ContentItem :=
  { id := "mot-002", category := "motivation", text := "Encore un pas", provider := "local" }

/-- C3 counterexample: with both candidates recently sent and a random
trace drawing index 0 on each of the 10 anti-repetition attempts but
index 1 on the final unconditional draw, `getItem` returns item B even
though the last of the 10 drawn items was item A — the exhausted-attempts
fallback is a fresh 11th draw, not the last drawn item. -/
theorem c3_counterexample :
    localPackGetItem (fun _ _ _ => true) (fun t => if t = 10 then 1 else 0)
        [c3ItemA, c3ItemB] (some "motivation") (some "g") = .ok c3ItemB ∧
    pickRandom [c3ItemA, c3ItemB] ((fun t => if t = 10 then 1 else 0) 9) = c3ItemA ∧
    c3ItemB ≠ c3ItemA := by
  refine ⟨rfl, rfl, by decide⟩

/-- C3 (amended): with a tenant supplied and a non-empty candidate set,
`getItem` makes up to 10 random draws and returns the first whose content
id was not recorded as sent to the tenant within the 30-day window; if all
10 attempts are exhausted it makes one further unconditional random draw
and returns that item (which need not be the last of the 10 draws). -/
theorem c3_local_pack_anti_repetition (wasSent : String → String → Nat → Bool)
    (draws : Nat → Nat) (cands : List ContentItem) (cat : Option String)
    (g : String) :
    cands ≠ [] →
    ((∀ t, t < MAX_RETRY_ATTEMPTS →
        wasSent g (pickRandom cands (draws t)).id ANTI_REPETITION_DAYS = true) →
      localPackGetItem wasSent draws cands cat (some g) =
        .ok (pickRandom cands (draws MAX_RETRY_ATTEMPTS))) ∧
    (∀ t, t < MAX_RETRY_ATTEMPTS →
      (∀ u, u < t →
        wasSent g (pickRandom cands (draws u)).id ANTI_REPETITION_DAYS = true) →
      wasSent g (pickRandom cands (draws t)).id ANTI_REPETITION_DAYS = false →
      localPackGetItem wasSent draws cands cat (some g) =
        .ok (pickRandom cands (draws t))) := by
  intro hne
  have hlen : ¬ cands.length = 0 := fun h => hne (List.length_eq_zero.mp h)
  constructor
  · intro hall
    have hf : findFresh (fun cid => wasSent g cid ANTI_REPETITION_DAYS)
        draws cands 0 MAX_RETRY_ATTEMPTS = none :=
      findFresh_all_seen _ draws cands MAX_RETRY_ATTEMPTS 0
        (fun t _ ht => hall t (by omega))
    simp [localPackGetItem, hlen, hf]
  · intro t ht hseen hfresh
    have hf : findFresh (fun cid => wasSent g cid ANTI_REPETITION_DAYS)
        draws cands 0 MAX_RETRY_ATTEMPTS = some (pickRandom cands (draws t)) :=
      findFresh_first_unseen _ draws cands MAX_RETRY_ATTEMPTS 0 t (by omega)
        (by omega) (fun u _ hu => hseen u hu) hfresh
    simp [localPackGetItem, hlen, hf]

/-- Witness for C3 (amended) at concrete inputs: a trace whose first draw
was recently sent but whose second was not returns the second draw, and a
trace with every attempt recently sent returns the extra 11th draw. -/
theorem c3_local_pack_anti_repetition_witness :
    localPackGetItem (fun _ cid _ => cid == "mot-001")
        (fun t => if t = 0 then 0 else 1)
        [c3ItemA, c3ItemB] (some "motivation") (some "g") =
      .ok (pickRandom [c3ItemA, c3ItemB] 1) ∧
    localPackGetItem (fun _ _ _ => true) (fun t => if t = 10 then 1 else 0)
        [c3ItemA, c3ItemB] (some "motivation") (some "g") =
      .ok (pickRandom [c3ItemA, c3ItemB] 1) :=
  ⟨(c3_local_pack_anti_repetition (fun _ cid _ => cid == "mot-001")
      (fun t => if t = 0 then 0 else 1) [c3ItemA, c3ItemB] (some "motivation") "g"
      (by decide)).2 1 (by decide) (by decide) (by decide),
   (c3_local_pack_anti_repetition (fun _ _ _ => true)
      (fun t => if t = 10 then 1 else 0) [c3ItemA, c3ItemB] (some "motivation") "g"
      (by decide)).1 (by decide)⟩

/-! ## Content selection chain (src/content/index.ts, `getContentItem`)

The remote call `apiProvider.getItem(category)` either resolves with an
item or rejects (timeout, transport error, or safety-filter rejection
after the bounded retries, all thrown as `ApiProviderError`; anything else
is also caught). Its outcome is modelled as an `Except` value; the flag on
the error records `error instanceof ApiProviderError`, which only selects
the log line. -/

/-- `getContentItem({guildId, category, localOnly})`: try the remote
provider unless `localOnly`, and on any remote failure fall through to the
local pack. `guildId` is a required string in `GetContentOptions`. -/
def getContentItem (apiResult : Except (Bool × String) ContentItem)
    (localOnly : Bool) (wasSent : String → String → Nat → Bool)
    (draws : Nat → Nat) (candidates : List ContentItem)
    (category : Option String) (guildId : String) :
    Except ContentNotFoundError ContentItem :=
  if !localOnly then
    match apiResult with
    | .ok item => .ok item
    | .error _ => localPackGetItem wasSent draws candidates category (some guildId)
  else
    localPackGetItem wasSent draws candidates category (some guildId)

theorem localPackGetItem_ok_of_nonempty (wasSent : String → String → Nat → Bool)
    (draws : Nat → Nat) (cands : List ContentItem) (cat : Option String)
    (g : Option String) (hne : cands ≠ []) :
    ∃ item, localPackGetItem wasSent draws cands cat g = .ok item := by
  have hlen : ¬ cands.length = 0 := fun h => hne (List.length_eq_zero.mp h)
  cases g with
  | none => exact ⟨pickRandom cands (draws 0), by simp [localPackGetItem, hlen]⟩
  | some g =>
    cases hf : findFresh (fun cid => wasSent g cid ANTI_REPETITION_DAYS)
        draws cands 0 MAX_RETRY_ATTEMPTS with
    | none =>
      exact ⟨pickRandom cands (draws MAX_RETRY_ATTEMPTS),
        by simp [localPackGetItem, hlen, hf]⟩
    | some item => exact ⟨item, by simp [localPackGetItem, hlen, hf]⟩

/-- C6 counterexample: the content-not-found condition is raised even when
a tenant IS given — with tenant "g" supplied, a failed remote call, and an
empty local candidate set, `getContentItem` surfaces the error — refuting
“raised when the local candidate set is empty and no tenant is given”. -/
theorem c6_counterexample :
    getContentItem (.error (true, "Request timeout")) false
        (fun _ _ _ => false) (fun _ => 0) [] (some "motivation") "g" =
      .error ⟨some "motivation", "g"⟩ := rfl

/-- C6 (amended): every remote-provider failure silently falls through to
the local pack and is never surfaced to the caller; a successful remote
call is returned as is; and the only caller-visible failure is the
content-not-found condition, raised exactly when the local candidate set
for the requested category is empty (whether or not a tenant is given —
the orchestrator always passes its required `guildId` through). -/
theorem c6_remote_failure_fallback :
    (∀ (e : Bool × String) (ws : String → String → Nat → Bool)
        (dr : Nat → Nat) (cands : List ContentItem) (cat : Option String)
        (g : String),
      getContentItem (.error e) false ws dr cands cat g =
        localPackGetItem ws dr cands cat (some g)) ∧
    (∀ (item : ContentItem) (ws : String → String → Nat → Bool)
        (dr : Nat → Nat) (cands : List ContentItem) (cat : Option String)
        (g : String),
      getContentItem (.ok item) false ws dr cands cat g = .ok item) ∧
    (∀ (apiResult : Except (Bool × String) ContentItem) (localOnly : Bool)
        (ws : String → String → Nat → Bool) (dr : Nat → Nat)
        (cands : List ContentItem) (cat : Option String) (g : String),
      cands ≠ [] →
      ∃ item, getContentItem apiResult localOnly ws dr cands cat g = .ok item) ∧
    (∀ (e : Bool × String) (localOnly : Bool)
        (ws : String → String → Nat → Bool) (dr : Nat → Nat)
        (cat : Option String) (g : String),
      getContentItem (.error e) localOnly ws dr [] cat g = .error ⟨cat, g⟩) := by
  refine ⟨fun e ws dr cands cat g => rfl, fun item ws dr cands cat g => rfl, ?_, ?_⟩
  · intro apiResult localOnly ws dr cands cat g hne
    cases localOnly with
    | true => exact localPackGetItem_ok_of_nonempty ws dr cands cat (some g) hne
    | false =>
      cases apiResult with
      | ok item => exact ⟨item, rfl⟩
      | error e => exact localPackGetItem_ok_of_nonempty ws dr cands cat (some g) hne
  · intro e localOnly ws dr cat g
    cases localOnly <;> rfl

/-- Witness for C6 (amended): with one candidate available, a timed-out
remote call still yields a successful result from the local pack. -/
theorem c6_remote_failure_fallback_witness :
    ∃ item,
      getContentItem (.error (true, "Request timeout")) false
        (fun _ _ _ => false) (fun _ => 0) [c3ItemA] (some "motivation") "g" =
        .ok item :=
  c6_remote_failure_fallback.2.2.1 (.error (true, "Request timeout")) false
    (fun _ _ _ => false) (fun _ => 0) [c3ItemA] (some "motivation") "g"
    (by decide)

/-! ## Scheduler tick (src/scheduler/scheduler.ts `processGuilds`,
src/scheduler/jobs.ts `isDayActive` / `isSlotScheduled`)

The per-tick external effects are collected in `TickEnv`: `timeIn` and
`dayIn` are the (total, never-throwing) time-resolver calls, and `send`
is the awaited `sendScheduledMessage(guildId, slot)` call, whose
rejection (a `DatabaseError` from the config/cooldown reads it performs
before its own try block, for instance) lands in the per-guild `catch`.
Each guild's async task resolves after its internal try/catch, so a task
never rejects; `Promise.allSettled` then joins all tasks. -/

/-- `GuildConfig` (src/types/index.ts), dates as integer timestamps. -/
structure GuildConfig where
  guildId : String
  channelId : String
  timezone : String
  cadence : Nat
  activeDays : List Nat
  scheduleTimes : List String
  contextualEnabled : Bool
  createdAt : Int
  updatedAt : Int
deriving Repr, DecidableEq

/-- `isDayActive(config, dayOfWeek)`. -/
def isDayActive (config : GuildConfig) (dayOfWeek : Nat) : Bool :=
  config.activeDays.contains dayOfWeek

/-- `isSlotScheduled(config, slot)`. -/
def isSlotScheduled (config : GuildConfig) (slot : String) : Bool :=
  config.scheduleTimes.contains slot

/-- External collaborators of one scheduler tick. -/
structure TickEnv where
  timeIn : String → String
  dayIn : String → Nat
  send : String → String → Except String Unit

/-- The `for (const slot of config.scheduleTimes)` loop in the tick body:
skip unscheduled slots, await `send` on a slot matching the current time;
an awaited rejection aborts the loop into the guild's catch. -/
def runSlots (env : TickEnv) (config : GuildConfig) (currentTime : String) :
    List String → Except String Unit
  | [] => .ok ()
  | slot :: rest =>
    if !(isSlotScheduled config slot) then runSlots env config currentTime rest
    else if currentTime = slot then
      match env.send config.guildId slot with
      | .ok _ => runSlots env config currentTime rest
      | .error e => .error e
    else runSlots env config currentTime rest

/-- The body of the per-guild `try` block inside `processGuilds`. -/
def processOneGuild (env : TickEnv) (config : GuildConfig) :
    Except String Unit :=
  let currentTime := env.timeIn config.timezone
  let currentDay := env.dayIn config.timezone
  if !(isDayActive config currentDay) then .ok ()
  else runSlots env config currentTime config.scheduleTimes

/-- Settled result of one guild's tick task: the internal catch logs any
error, so the task always fulfills. -/
inductive GuildOutcome where
  | completed
  | caught (e : String)
deriving Repr, DecidableEq

/-- One guild's async task from `configs.map(async (config) => ...)` —
the try/catch converts any exception into a logged, settled outcome. -/
def runGuildTask (env : TickEnv) (config : GuildConfig) : GuildOutcome :=
  match processOneGuild env config with
  | .ok _ => .completed
  | .error e => .caught e

/-- `processGuilds()`: no-op on an empty config list, otherwise dispatch
one task per guild and join them all (`Promise.allSettled(tasks)`). The
list of settled outcomes is the tick's join. -/
def processGuilds (env : TickEnv) (configs : List GuildConfig) :
    List GuildOutcome :=
  if configs.length = 0 then []
  else configs.map (runGuildTask env)

/-- C5: a tick never propagates an exception (its result type is a list
of settled outcomes, every per-guild exception having been caught), it
settles exactly one task per tenant in the input list, and the i-th
outcome is exactly the settled result of processing the i-th tenant alone
— so a failure while processing one tenant (destination resolution or
delivery included) cannot prevent the processing of any other tenant in
the same tick, and the tick's value joins all dispatched tasks. -/
theorem c5_tick_fault_isolation (env : TickEnv) (configs : List GuildConfig) :
    (processGuilds env configs).length = configs.length ∧
    ∀ i : Nat, (processGuilds env configs)[i]? =
      (configs[i]?).map (runGuildTask env) := by
  unfold processGuilds
  by_cases h : configs.length = 0
  · rw [if_pos h]
    have : configs = [] := List.length_eq_zero.mp h
    subst this
    exact ⟨rfl, fun i => rfl⟩
  · rw [if_neg h]
    exact ⟨List.length_map _ _, fun i => List.getElem?_map _ _ _⟩

/-! ## Time resolver (src/scheduler/scheduler.ts,
`getCurrentTimeInTimezone` / `getCurrentDayOfWeek`)

`Intl.DateTimeFormat(...).formatToParts(now)` is an external API: its
outcome per timezone string is modelled in `TimeBackend` as
`some parts` (success) or `none` (the constructor threw, e.g. an invalid
timezone identifier), together with the `Date` UTC accessors used by the
fallback path. The contract `IntlTimeContract` records what the fixed
backend guarantees: a `'2-digit'`/`hour12:false` formatter emits
two-digit numeric `hour` (including the `"24"` quirk) and `minute` part
values, `getUTCHours() < 24`, `getUTCMinutes() < 60`, `getUTCDay() < 7`. -/

/-- One entry of `formatToParts`' result. -/
structure IntlPart where
  type : String
  value : String
deriving Repr, DecidableEq

/-- The time backend: `Intl` formatting per timezone string plus the
`Date` UTC accessors at the current instant. -/
structure TimeBackend where
  fmtTime : String → Option (List IntlPart)
  fmtWeekday : String → Option (List IntlPart)
  utcHour : Nat
  utcMinute : Nat
  utcDay : Nat

/-- `parts.find((p) => p.type === 'hour')?.value ?? '00'`. -/
def hourPart (parts : List IntlPart) : String :=
  (((parts.find? (fun p => p.type == "hour")).map (fun p => p.value)).getD "00")

/-- `parts.find((p) => p.type === 'minute')?.value ?? '00'`. -/
def minutePart (parts : List IntlPart) : String :=
  (((parts.find? (fun p => p.type == "minute")).map (fun p => p.value)).getD "00")

/-- `parts.find((p) => p.type === 'weekday')?.value ?? 'Mon'`. -/
def weekdayPart (parts : List IntlPart) : String :=
  (((parts.find? (fun p => p.type == "weekday")).map (fun p => p.value)).getD "Mon")

/-- JS `String(n).padStart(2, '0')`. -/
def padStart2 (s : String) : String :=
  if s.length ≥ 2 then s
  else String.mk (List.replicate (2 - s.length) '0') ++ s

/-- `getCurrentTimeInTimezone(timezone)`: format in the requested
timezone, defaulting missing parts to `"00"`, normalizing a `"24"` hour
to `"00"`; on a formatter exception, fall back to zero-padded UTC
hours/minutes. -/
def getCurrentTimeInTimezone (b : TimeBackend) (timezone : String) : String :=
  match b.fmtTime timezone with
  | some parts =>
    let hour := hourPart parts
    let minute := minutePart parts
    let normalizedHour := if hour == "24" then "00" else hour
    normalizedHour ++ ":" ++ minute
  | none =>
    padStart2 (toString b.utcHour) ++ ":" ++ padStart2 (toString b.utcMinute)

/-- The `weekdayMap` record `{Mon: 1, ..., Sun: 7}`; a record lookup is
`undefined` (`none`) off the listed keys. -/
def weekdayMap (w : String) : Option Nat :=
  if w = "Mon" then some 1
  else if w = "Tue" then some 2
  else if w = "Wed" then some 3
  else if w = "Thu" then some 4
  else if w = "Fri" then some 5
  else if w = "Sat" then some 6
  else if w = "Sun" then some 7
  else none

/-- `getCurrentDayOfWeek(timezone)`: map the locale weekday abbreviation
to ISO numbering with default Monday(1); on a formatter exception, fall
back to the UTC day with `0=Sun` converted to `7`. -/
def getCurrentDayOfWeek (b : TimeBackend) (timezone : String) : Nat :=
  match b.fmtWeekday timezone with
  | some parts => (weekdayMap (weekdayPart parts)).getD 1
  | none =>
    let day := b.utcDay
    if day = 0 then 7 else day

/-- A two-character all-digit string. -/
def isTwoDigitNum (s : String) : Bool :=
  match s.toList with
  | [a, b] => a.isDigit && b.isDigit
  | _ => false

/-- The regex `^\d{2}:\d{2}$` as a decidable check. -/
def matchesHHMM (s : String) : Bool :=
  match s.toList with
  | [a, b, c, d, e] => a.isDigit && b.isDigit && c == ':' && d.isDigit && e.isDigit
  | _ => false

/-- What the Node `Intl`/`Date` backend guarantees (external to the
repository): hour and minute part values (after the `?? '00'` defaults)
are two-digit numeric strings, and the UTC accessors are in range. -/
def IntlTimeContract (b : TimeBackend) : Prop :=
  (∀ tz parts, b.fmtTime tz = some parts →
    isTwoDigitNum (hourPart parts) = true ∧
    isTwoDigitNum (minutePart parts) = true) ∧
  b.utcHour < 24 ∧ b.utcMinute < 60 ∧ b.utcDay < 7

theorem matchesHHMM_append (h m : String)
    (hh : isTwoDigitNum h = true) (hm : isTwoDigitNum m = true) :
    matchesHHMM (h ++ ":" ++ m) = true := by
  unfold isTwoDigitNum at hh hm
  unfold matchesHHMM
  have hdata : (h ++ ":" ++ m).toList = h.toList ++ (':' :: m.toList) := by
    show (h ++ ":" ++ m).data = h.data ++ (':' :: m.data)
    rw [String.data_append, String.data_append, List.append_assoc]
    rfl
  rw [hdata]
  rcases hl : h.toList with _ | ⟨a, _ | ⟨b, _ | _⟩⟩ <;> rw [hl] at hh <;>
    (try exact Bool.noConfusion hh)
  rcases ml : m.toList with _ | ⟨d, _ | ⟨e, _ | _⟩⟩ <;> rw [ml] at hm <;>
    (try exact Bool.noConfusion hm)
  have hh' : (a.isDigit && b.isDigit) = true := hh
  have hm' : (d.isDigit && e.isDigit) = true := hm
  show ((((a.isDigit && b.isDigit) && (':' == ':')) && d.isDigit) && e.isDigit) = true
  simp only [Bool.and_eq_true] at hh' hm'
  simp [hh'.1, hh'.2, hm'.1, hm'.2]

theorem isTwoDigitNum_padStart2 (n : Nat) (hn : n < 60) :
    isTwoDigitNum (padStart2 (toString n)) = true := by
  revert hn
  revert n
  decide

theorem weekdayMap_getD_bounds (w : String) :
    1 ≤ (weekdayMap w).getD 1 ∧ (weekdayMap w).getD 1 ≤ 7 := by
  unfold weekdayMap
  split_ifs <;> simp

/-- C7: for every timezone string (valid, invalid, or garbage),
`getCurrentTimeInTimezone` returns a string matching `^\d{2}:\d{2}$`,
with a `"24"` hour normalized to `"00"`, and `getCurrentDayOfWeek`
returns an integer in `[1,7]`; an unrecognized timezone falls back to the
UTC-based computation, and an unmappable weekday abbreviation falls back
to Monday(1). Both embeddings are total functions: no input throws. -/
theorem c7_time_resolver_wellformed (b : TimeBackend) (tz : String)
    (hc : IntlTimeContract b) :
    matchesHHMM (getCurrentTimeInTimezone b tz) = true ∧
    (1 ≤ getCurrentDayOfWeek b tz ∧ getCurrentDayOfWeek b tz ≤ 7) ∧
    (∀ parts, b.fmtTime tz = some parts → hourPart parts = "24" →
      getCurrentTimeInTimezone b tz = "00:" ++ minutePart parts) ∧
    (b.fmtTime tz = none →
      getCurrentTimeInTimezone b tz =
        padStart2 (toString b.utcHour) ++ ":" ++ padStart2 (toString b.utcMinute)) ∧
    (b.fmtWeekday tz = none →
      getCurrentDayOfWeek b tz = (if b.utcDay = 0 then 7 else b.utcDay)) ∧
    (∀ parts, b.fmtWeekday tz = some parts →
      weekdayMap (weekdayPart parts) = none →
      getCurrentDayOfWeek b tz = 1) := by
  obtain ⟨hfmt, hH, hM, hD⟩ := hc
  refine ⟨?_, ⟨?_, ?_⟩, ?_, ?_, ?_, ?_⟩
  · unfold getCurrentTimeInTimezone
    cases ht : b.fmtTime tz with
    | none =>
      exact matchesHHMM_append _ _
        (isTwoDigitNum_padStart2 _ (by omega))
        (isTwoDigitNum_padStart2 _ (by omega))
    | some parts =>
      obtain ⟨hhp, hmp⟩ := hfmt tz parts ht
      by_cases h24 : hourPart parts == "24"
      · simp only [h24, if_true]
        exact matchesHHMM_append _ _ (by decide) hmp
      · simp only [h24, if_false]
        exact matchesHHMM_append _ _ hhp hmp
  · unfold getCurrentDayOfWeek
    cases ht : b.fmtWeekday tz with
    | none =>
      show 1 ≤ (if b.utcDay = 0 then 7 else b.utcDay)
      split_ifs <;> omega
    | some parts => exact (weekdayMap_getD_bounds (weekdayPart parts)).1
  · unfold getCurrentDayOfWeek
    cases ht : b.fmtWeekday tz with
    | none =>
      show (if b.utcDay = 0 then 7 else b.utcDay) ≤ 7
      split_ifs <;> omega
    | some parts => exact (weekdayMap_getD_bounds (weekdayPart parts)).2
  · intro parts hp h24
    unfold getCurrentTimeInTimezone
    rw [hp]
    simp [h24]
  · intro hp
    unfold getCurrentTimeInTimezone
    rw [hp]
  · intro hp
    unfold getCurrentDayOfWeek
    rw [hp]
  · intro parts hp hw
    unfold getCurrentDayOfWeek
    rw [hp]
    simp [hw]

/-- A concrete backend for the witness: one recognized timezone whose
formatter exhibits the `"24:05"` quirk and a French weekday abbreviation
(unmappable), every other timezone string unrecognized; the clock reads
09:03 UTC on a Sunday (`getUTCDay() = 0`). -/
def exampleBackend : TimeBackend :=
  { fmtTime := fun tz =>
      if tz = "Europe/Paris" then
        some [⟨"hour", "24"⟩, ⟨"literal", ":"⟩, ⟨"minute", "05"⟩]
      else none
    fmtWeekday := fun tz =>
      if tz = "Europe/Paris" then some [⟨"weekday", "Lun"⟩] else none
    utcHour := 9
    utcMinute := 3
    utcDay := 0 }

theorem exampleBackend_contract : IntlTimeContract exampleBackend := by
  refine ⟨?_, by decide, by decide, by decide⟩
  intro tz parts h
  by_cases htz : tz = "Europe/Paris"
  · rw [show exampleBackend.fmtTime tz =
        some [⟨"hour", "24"⟩, ⟨"literal", ":"⟩, ⟨"minute", "05"⟩] from
        if_pos htz] at h
    cases h
    exact ⟨by decide, by decide⟩
  · rw [show exampleBackend.fmtTime tz = none from if_neg htz] at h
    cases h

/-- Witness for C7 on the concrete backend: a garbage timezone string
produces the well-formed UTC fallback "09:03" and weekday 7, and the
recognized timezone's "24:05" quirk with unmappable abbreviation "Lun"
produces "00:05" and Monday(1). -/
theorem c7_time_resolver_wellformed_witness :
    matchesHHMM (getCurrentTimeInTimezone exampleBackend "not/a_zone!") = true ∧
    (1 ≤ getCurrentDayOfWeek exampleBackend "not/a_zone!" ∧
      getCurrentDayOfWeek exampleBackend "not/a_zone!" ≤ 7) ∧
    matchesHHMM (getCurrentTimeInTimezone exampleBackend "Europe/Paris") = true ∧
    getCurrentTimeInTimezone exampleBackend "Europe/Paris" = "00:05" ∧
    getCurrentDayOfWeek exampleBackend "Europe/Paris" = 1 ∧
    getCurrentTimeInTimezone exampleBackend "not/a_zone!" = "09:03" ∧
    getCurrentDayOfWeek exampleBackend "not/a_zone!" = 7 :=
  ⟨(c7_time_resolver_wellformed exampleBackend "not/a_zone!"
      exampleBackend_contract).1,
   (c7_time_resolver_wellformed exampleBackend "not/a_zone!"
      exampleBackend_contract).2.1,
   (c7_time_resolver_wellformed exampleBackend "Europe/Paris"
      exampleBackend_contract).1,
   by
     have := (c7_time_resolver_wellformed exampleBackend "Europe/Paris"
       exampleBackend_contract).2.2.1
       [⟨"hour", "24"⟩, ⟨"literal", ":"⟩, ⟨"minute", "05"⟩] rfl (by decide)
     simpa using this,
   (c7_time_resolver_wellformed exampleBackend "Europe/Paris"
      exampleBackend_contract).2.2.2.2.2
      [⟨"weekday", "Lun"⟩] rfl (by decide),
   by
     have := (c7_time_resolver_wellformed exampleBackend "not/a_zone!"
       exampleBackend_contract).2.2.2.1 rfl
     simpa using this,
   by
     have := (c7_time_resolver_wellformed exampleBackend "not/a_zone!"
       exampleBackend_contract).2.2.2.2.1 rfl
     simpa using this⟩

/-! ## Guild configuration repository (src/db/guildConfigRepo.ts)

The `guild_config` table keyed by `guild_id` (PRIMARY KEY) is modelled as
a list of stored rows; `CURRENT_TIMESTAMP` at the statement's execution
is the explicit `now`. The `INSERT ... ON CONFLICT(guild_id) DO UPDATE
SET` lists every configuration column and `updated_at`, but not
`created_at`, so a conflicting row keeps its original creation time. -/

/-- A stored `guild_config` row: arrays comma-joined, boolean as 0/1. -/
structure GuildConfigRow where
  guildId : String
  channelId : String
  timezone : String
  cadence : Nat
  activeDays : String
  scheduleTimes : String
  contextualEnabled : Nat
  createdAt : Int
  updatedAt : Int
deriving Repr, DecidableEq

abbrev GuildConfigTable := List GuildConfigRow

/-- `xs.join(',')`. -/
def joinComma (xs : List String) : String := String.intercalate "," xs

/-- The row contents bound by `stmt.run(...)` in `upsert`, with both
timestamps at `now` (the fresh-insert form). -/
def upsertRow (config : GuildConfig) (now : Int) : GuildConfigRow :=
  { guildId := config.guildId
    channelId := config.channelId
    timezone := config.timezone
    cadence := config.cadence
    activeDays := joinComma (config.activeDays.map toString)
    scheduleTimes := joinComma config.scheduleTimes
    contextualEnabled := if config.contextualEnabled then 1 else 0
    createdAt := now
    updatedAt := now }

/-- `GuildConfigRepository.upsert(config)`: insert the row, or on a
`guild_id` conflict update every configuration column and `updated_at`
from the excluded row, keeping the stored `created_at`. -/
def upsert (table : GuildConfigTable) (config : GuildConfig) (now : Int) :
    GuildConfigTable :=
  if table.any (fun r => r.guildId == config.guildId) then
    table.map (fun r =>
      if r.guildId == config.guildId then
        { upsertRow config now with createdAt := r.createdAt }
      else r)
  else
    table ++ [upsertRow config now]

theorem find?_upsert_map (table : GuildConfigTable) (gid : String)
    (f : GuildConfigRow → GuildConfigRow)
    (hf : ∀ r, (f r).guildId = gid) :
    (table.map (fun r => if r.guildId == gid then f r else r)).find?
        (fun r => r.guildId == gid) =
      (table.find? (fun r => r.guildId == gid)).map f := by
  induction table with
  | nil => rfl
  | cons r rest ih =>
    by_cases hr : r.guildId == gid
    · simp only [List.map_cons, if_pos hr]
      rw [@List.find?_cons_of_pos _ (fun r => r.guildId == gid) (f r) _
          (by simp [hf r]),
        @List.find?_cons_of_pos _ (fun r => r.guildId == gid) r _ hr]
      rfl
    · simp only [List.map_cons, if_neg hr]
      rw [@List.find?_cons_of_neg _ (fun r => r.guildId == gid) r _ hr,
        @List.find?_cons_of_neg _ (fun r => r.guildId == gid) r _ hr, ih]

theorem filter_upsert_map (table : GuildConfigTable) (gid : String)
    (f : GuildConfigRow → GuildConfigRow)
    (hf : ∀ r, (f r).guildId = gid) :
    (table.map (fun r => if r.guildId == gid then f r else r)).filter
        (fun r => !(r.guildId == gid)) =
      table.filter (fun r => !(r.guildId == gid)) := by
  induction table with
  | nil => rfl
  | cons r rest ih =>
    by_cases hr : r.guildId == gid
    · simp only [List.map_cons, if_pos hr]
      rw [@List.filter_cons_of_neg _ (fun r => !(r.guildId == gid)) (f r) _
          (by simp [hf r]),
        @List.filter_cons_of_neg _ (fun r => !(r.guildId == gid)) r _
          (by simp [hr]), ih]
    · simp only [List.map_cons, if_neg hr]
      rw [@List.filter_cons_of_pos _ (fun r => !(r.guildId == gid)) r _
          (by simp [hr]),
        @List.filter_cons_of_pos _ (fun r => !(r.guildId == gid)) r _
          (by simp [hr]), ih]

/-- C9: upserting an existing tenant ID replaces every configuration
field and refreshes `updated_at` while keeping the stored row's original
`created_at`; upserting a new tenant ID appends a row with both
timestamps set to now; rows of every other tenant are untouched. -/
theorem c9_upsert_preserves_created (table : GuildConfigTable)
    (config : GuildConfig) (now : Int) :
    (∀ old, table.find? (fun r => r.guildId == config.guildId) = some old →
      (upsert table config now).find? (fun r => r.guildId == config.guildId) =
        some { upsertRow config now with createdAt := old.createdAt }) ∧
    (table.find? (fun r => r.guildId == config.guildId) = none →
      (upsert table config now).find? (fun r => r.guildId == config.guildId) =
        some (upsertRow config now)) ∧
    (upsert table config now).filter (fun r => !(r.guildId == config.guildId)) =
      table.filter (fun r => !(r.guildId == config.guildId)) := by
  have hf : ∀ r : GuildConfigRow,
      ({ upsertRow config now with createdAt := r.createdAt }).guildId =
        config.guildId := fun _ => rfl
  refine ⟨?_, ?_, ?_⟩
  · intro old hold
    have hany : table.any (fun r => r.guildId == config.guildId) := by
      refine List.any_eq_true.mpr ⟨old, List.mem_of_find?_eq_some hold, ?_⟩
      have hp := List.find?_some hold
      exact hp
    unfold upsert
    rw [if_pos hany, find?_upsert_map table config.guildId _ hf, hold]
    rfl
  · intro hnone
    have hany : ¬ table.any (fun r => r.guildId == config.guildId) := by
      rw [List.any_eq_true]
      rintro ⟨r, hr, hp⟩
      rw [List.find?_eq_none] at hnone
      exact hnone r hr hp
    unfold upsert
    rw [if_neg hany, List.find?_append, hnone]
    rw [List.find?_cons_of_pos _ (by simp [upsertRow])]
    rfl
  · unfold upsert
    by_cases hany : table.any (fun r => r.guildId == config.guildId)
    · rw [if_pos hany]
      exact filter_upsert_map table config.guildId _ hf
    · rw [if_neg hany, List.filter_append]
      rw [List.filter_cons_of_neg (by simp [upsertRow]), List.filter_nil,
        List.append_nil]

/-- A configuration value for the C9 witness. -/
def c9Config : GuildConfig :=
  { guildId := "123", channelId := "987", timezone := "Europe/Paris"
    cadence := 2, activeDays := [1, 2, 3, 4, 5]
    scheduleTimes := ["09:15", "16:30"], contextualEnabled := false
    createdAt := 0, updatedAt := 0 }

/-- A pre-existing stored row for tenant "123" created at time 100, and a
stored row of another tenant "999". -/
def c9OldRow : GuildConfigRow :=
  { guildId := "123", channelId := "111", timezone := "UTC"
    cadence := 3, activeDays := "1,2", scheduleTimes := "08:00,12:00,18:00"
    contextualEnabled := 1, createdAt := 100, updatedAt := 100 }

def c9OtherRow : GuildConfigRow :=
  { guildId := "999", channelId := "222", timezone := "UTC"
    cadence := 2, activeDays := "1", scheduleTimes := "10:00,15:00"
    contextualEnabled := 0, createdAt := 50, updatedAt := 60 }

/-- Witness for C9: upserting tenant "123" over `[c9OldRow, c9OtherRow]`
at time 200 yields a row with the new fields, `updated_at = 200`, and the
original `created_at = 100`; upserting into a table without tenant "123"
stores both timestamps at 200; tenant "999"'s row is untouched. -/
theorem c9_upsert_preserves_created_witness :
    (upsert [c9OldRow, c9OtherRow] c9Config 200).find?
        (fun r => r.guildId == c9Config.guildId) =
      some { upsertRow c9Config 200 with createdAt := 100 } ∧
    (upsert [c9OtherRow] c9Config 200).find?
        (fun r => r.guildId == c9Config.guildId) =
      some (upsertRow c9Config 200) ∧
    (upsert [c9OldRow, c9OtherRow] c9Config 200).filter
        (fun r => !(r.guildId == c9Config.guildId)) = [c9OtherRow] :=
  ⟨(c9_upsert_preserves_created [c9OldRow, c9OtherRow] c9Config 200).1
      c9OldRow rfl,
   (c9_upsert_preserves_created [c9OtherRow] c9Config 200).2.1 rfl,
   (c9_upsert_preserves_created [c9OldRow, c9OtherRow] c9Config 200).2.2⟩

/-! ## Sent-history recording (src/db/sentRepo.ts `record`,
src/content/index.ts `getFormattedContent` / `recordSentContent`,
src/scheduler/jobs.ts `sendScheduledMessage`)

`sentRepo.record` is a plain `INSERT INTO sent_messages` — append-only,
never an update. `getFormattedContent` calls `sentRepo.record` with a
placeholder `channelId: ''` *before* returning the content to the caller,
hence before any `channel.send`; `sendScheduledMessage` then calls
`recordSentContent` again after a successful send. -/

/-- A `sent_messages` row. -/
structure SentMessage where
  guildId : String
  channelId : String
  contentId : String
  category : String
  provider : String
  sentAt : Int
deriving Repr, DecidableEq

abbrev SentTable := List SentMessage

/-- `SentMessageRepository.record(message)`: `INSERT INTO sent_messages`. -/
def record (table : SentTable) (m : SentMessage) : SentTable := table ++ [m]

/-- The `sentRepo.record({... channelId: '' ...})` call executed inside
`getFormattedContent`, before the caller delivers anything. -/
def getFormattedContentRecord (guildId : String) (item : ContentItem)
    (now : Int) (table : SentTable) : SentTable :=
  record table
    { guildId := guildId, channelId := "", contentId := item.id
      category := item.category, provider := item.provider, sentAt := now }

/-- `recordSentContent(guildId, channelId, item)`. -/
def recordSentContent (guildId channelId : String) (item : ContentItem)
    (now : Int) (table : SentTable) : SentTable :=
  record table
    { guildId := guildId, channelId := channelId, contentId := item.id
      category := item.category, provider := item.provider, sentAt := now }

/-- The sent-history writes of one `sendScheduledMessage` delivery
attempt that reaches the content-fetch step: `getFormattedContent`
records first; then `recordSentContent` records again only if
`channel.send` resolved; the catch block rolls nothing back. -/
def sendScheduledMessageRecords (guildId channelId : String)
    (item : ContentItem) (sendResult : Except String Unit) (now : Int)
    (table : SentTable) : SentTable :=
  let afterFetch := getFormattedContentRecord guildId item now table
  match sendResult with
  | .ok _ => recordSentContent guildId channelId item now afterFetch
  | .error _ => afterFetch

/-- Number of sent-history rows for one tenant/content pair. -/
def countFor (table : SentTable) (guildId contentId : String) : Nat :=
  (table.filter (fun m => m.guildId == guildId && m.contentId == contentId)).length

/-- The item delivered in the C4 evaluation. -/
def c4Item : ContentItem :=
  { id := "mot-001", category := "motivation", text := "Allez hop"
    provider := "local" }

/-- C4 evaluation at the failing input: starting from an empty
`sent_messages` table, a delivery attempt whose `channel.send` rejects
still leaves one sent-history row for the tenant/content pair (a row
exists although the delivery step never succeeded), and an attempt whose
`channel.send` resolves leaves two rows (a single delivery inserts two
records, not one) — the second differing from the first only in its
channel id, since `record` only ever INSERTs and overwrites nothing. -/
theorem c4_record_before_delivery_and_double :
    countFor (sendScheduledMessageRecords "g1" "c1" c4Item
        (.error "Missing Permissions") 0 []) "g1" "mot-001" = 1 ∧
    countFor (sendScheduledMessageRecords "g1" "c1" c4Item
        (.ok ()) 0 []) "g1" "mot-001" = 2 ∧
    sendScheduledMessageRecords "g1" "c1" c4Item (.ok ()) 0 [] =
      [{ guildId := "g1", channelId := "", contentId := "mot-001"
         category := "motivation", provider := "local", sentAt := 0 },
       { guildId := "g1", channelId := "c1", contentId := "mot-001"
         category := "motivation", provider := "local", sentAt := 0 }] :=
  ⟨rfl, rfl, rfl⟩

end HappyManager
